import Mathlib

/-!
Verification development for the tampermonkey-developer skill repository.

The repository ships two shell tools embedded in SKILL.md
(validate-userscript.sh and generate-userscript.sh), three userscript
templates, and a worked example userscript (YouTube timestamp bookmarker,
in README.md).  This file gives a shallow embedding of those programs:

* the validator: a battery of grep-based textual checks over the lines of
  the target file, together with the actual bash execution semantics of
  the script (which runs under set -e and increments its counters with
  post-increment arithmetic commands);
* the generator: argument validation, template selection, output path and
  the sed substitutions (title casing, icon-domain extraction);
* the waitForElement primitive of the templates, as a step function over
  a sequence of mutation notifications;
* the RouteHandler route table of the SPA template, with the simple
  pattern compilation and an anchored backtracking matcher;
* the bookmark store of the example script, with a JSON value layer.

Files are modelled as lists of lines; lines and strings as lists of
characters.  All definitions are executable.
-/

namespace TM

/-! ## Generic string machinery (grep-style substring and prefix tests) -/

/-- Boolean test: the first list is a prefix of the second. -/
def isPrefixB : List Char → List Char → Bool
  | [], _ => true
  | _ :: _, [] => false
  | a :: as, b :: bs => a = b && isPrefixB as bs

/-- Boolean test: the first list occurs as a contiguous substring of the
second.  This is grep with a fixed-string pattern on one line. -/
def isInfixB (needle : List Char) : List Char → Bool
  | [] => isPrefixB needle []
  | c :: t => isPrefixB needle (c :: t) || isInfixB needle t

/-- grep -E with pattern a.*b on one line: an occurrence of a followed,
at or after its end, by an occurrence of b. -/
def thenMatchB (a b : List Char) : List Char → Bool
  | [] => isPrefixB a [] && isPrefixB b []
  | c :: t => (isPrefixB a (c :: t) && isInfixB b ((c :: t).drop a.length))
      || thenMatchB a b t

/-- grep with pattern a.b (one unescaped dot, as in document.write and
console.log): an occurrence of a, one arbitrary character, then b. -/
def wildMatchB (a b : List Char) : List Char → Bool
  | [] => false
  | c :: t => (isPrefixB a (c :: t) &&
      (match (c :: t).drop a.length with
       | [] => false
       | _ :: r => isPrefixB b r))
      || wildMatchB a b t

/-- Whitespace for the \s class of the innerHTML check (within a line). -/
def isSpaceChar (c : Char) : Bool := c = ' ' || c = '\t'

/-- grep -E with the validator's innerHTML pattern
.innerHTML\s*=.*[+$] on one line. -/
def innerHTMLMatchB : List Char → Bool
  | [] => false
  | c :: t => (isPrefixB ".innerHTML".data (c :: t) &&
      (match ((c :: t).drop 10).dropWhile isSpaceChar with
       | '=' :: rest => rest.any (fun x => x = '+' || x = '$')
       | _ => false))
      || innerHTMLMatchB t

/-! ## Validator: validate-userscript.sh

The file under validation is a list of lines.  Each check of the script
is translated literally from its grep commands. -/

/-- A line of a file. -/
abbrev Line := List Char

/-- A file: its list of lines. -/
abbrev FileText := List Line

/-- grep -q "pat" file for a fixed-string pattern: some line has the
pattern as a substring. -/
def fileHas (s : String) (file : FileText) : Bool :=
  file.any (isInfixB s.data)

/-- Severity of a validation finding. -/
inductive Severity where
  | error
  | warning
deriving DecidableEq

/-- One finding of the validator, tagged by which check produced it. -/
inductive Finding where
  | missingField (field : String)
  | gmNoGrant (func : String)
  | unsafeNoGrant
  | queryInLoop
  | intervalNoClear
  | listenerNoRemove
  | evalUse
  | innerHTMLVar
  | docWrite
  | noStrict
  | noIIFE
  | manyLogs (n : Nat)
deriving DecidableEq

/-- Severity assigned by the script to each finding (red = error,
yellow = warning). -/
def Finding.severity : Finding → Severity
  | .missingField _ => .error
  | .gmNoGrant _ => .error
  | .unsafeNoGrant => .warning
  | .queryInLoop => .warning
  | .intervalNoClear => .warning
  | .listenerNoRemove => .warning
  | .evalUse => .error
  | .innerHTMLVar => .warning
  | .docWrite => .warning
  | .noStrict => .warning
  | .noIIFE => .warning
  | .manyLogs _ => .warning

/-- required_fields of Check 1. -/
def requiredFields : List String := ["@name", "@version", "@match"]

/-- gm_functions of Check 2. -/
def gmFunctions : List String :=
  ["GM_setValue", "GM_getValue", "GM_xmlhttpRequest", "GM_addStyle",
   "GM_notification", "GM_setClipboard", "GM_openInTab"]

/-- The grant line grepped for a GM function: "@grant" followed by eight
spaces and the function name. -/
def grantLineFor (func : String) : String := "@grant        " ++ func

/-- Check 1: each required field must appear as a line starting with
"// " followed by the field (grep -q "^// $field"). -/
def check1 (file : FileText) : List Finding :=
  requiredFields.filterMap fun f =>
    if file.any (isPrefixB ("// " ++ f).data) then none
    else some (.missingField f)

/-- Check 2: GM functions used without their grant line (errors), then
unsafeWindow without a grant mentioning it (warning). -/
def check2 (file : FileText) : List Finding :=
  (gmFunctions.filterMap fun f =>
    if fileHas f file && !fileHas (grantLineFor f) file then
      some (.gmNoGrant f)
    else none)
  ++ (if fileHas "unsafeWindow" file
         && !file.any (thenMatchB "@grant".data "unsafeWindow".data) then
        [Finding.unsafeNoGrant]
      else [])

/-- Check 3: performance anti-patterns (all warnings, in script order). -/
def check3 (file : FileText) : List Finding :=
  (if file.any (fun l => thenMatchB "for".data "querySelector".data l
        || thenMatchB "while".data "querySelector".data l) then
     [Finding.queryInLoop] else [])
  ++ (if fileHas "setInterval" file && !fileHas "clearInterval" file then
        [Finding.intervalNoClear] else [])
  ++ (if fileHas "addEventListener" file
         && !fileHas "removeEventListener" file then
        [Finding.listenerNoRemove] else [])

/-- Check 4: security issues: eval( is an error; innerHTML with
variables and document.write (dot is a wildcard) are warnings. -/
def check4 (file : FileText) : List Finding :=
  (if fileHas "eval(" file then [Finding.evalUse] else [])
  ++ (if file.any innerHTMLMatchB then [Finding.innerHTMLVar] else [])
  ++ (if file.any (wildMatchB "document".data "write".data) then
        [Finding.docWrite] else [])

/-- Number of lines matching console.log (dot is a wildcard), as
grep -c counts matching lines. -/
def consoleLogLines (file : FileText) : Nat :=
  (file.filter (wildMatchB "console".data "log".data)).length

/-- Check 5: best practices: missing use strict, missing IIFE wrapper,
more than five console.log lines (all warnings). -/
def check5 (file : FileText) : List Finding :=
  (if !fileHas "\x27use strict\x27" file
      && !fileHas "\x22use strict\x22" file then
     [Finding.noStrict] else [])
  ++ (if !fileHas "(function()" file && !fileHas "(() => \x7b" file then
        [Finding.noIIFE] else [])
  ++ (let n := consoleLogLines file
      if n > 5 then [Finding.manyLogs n] else [])

/-- The full battery of checks, in the order the script runs them.  This
is the list of findings the script is written to report. -/
def findings (file : FileText) : List Finding :=
  check1 file ++ check2 file ++ check3 file ++ check4 file ++ check5 file

/-- Error count of the full battery (the ERRORS counter the summary
block was written to inspect). -/
def errorCount (file : FileText) : Nat :=
  ((findings file).filter (fun f => f.severity = Severity.error)).length

/-- Warning count of the full battery. -/
def warningCount (file : FileText) : Nat :=
  ((findings file).filter (fun f => f.severity = Severity.warning)).length

/-- Exit status of the summary block of the script, as written: 0 when
the error counter is zero (warnings allowed), else 1. -/
def summaryExit (file : FileText) : Nat :=
  if errorCount file = 0 then 0 else 1

/-- Actual bash execution of the script on an existing file.  The script
runs under set -e and each finding is recorded with an arithmetic
post-increment ((ERRORS++)) or ((WARNINGS++)); when the counter is still
zero that command evaluates to 0, returns exit status 1, and set -e
aborts the script.  Hence the run prints the first finding of the
battery (its echo precedes the increment) and exits 1; with no findings
it reaches the summary and exits 0. -/
def bashRun (file : FileText) : Nat × List Finding :=
  match findings file with
  | [] => (0, [])
  | f :: _ => (1, [f])

/-- Exit status of the actual run. -/
def bashExit (file : FileText) : Nat := (bashRun file).1

/-- Findings actually reported by the run before it terminates. -/
def bashReported (file : FileText) : List Finding := (bashRun file).2

/-! ## Generator: generate-userscript.sh

Title casing, icon-domain extraction, and the overall control flow of
the script, translated from its sed pipelines and case statement. -/

/-- Word characters of the regex class underlying the GNU sed word
boundary anchor: letters, digits and underscore. -/
def isWordChar (c : Char) : Bool := c.isAlpha || c.isDigit || c = '_'

/-- sed s/\b\(.\)/\u\1/g: upper-case every character that sits right
after a word boundary, i.e. every word character whose predecessor is
not a word character (or which starts the string).  The boolean carries
whether the previous character was a word character. -/
def upBoundary (prevWord : Bool) : List Char → List Char
  | [] => []
  | c :: t =>
      (if isWordChar c && !prevWord then c.toUpper else c)
        :: upBoundary (isWordChar c) t

/-- The hyphen-to-space sed (s,-, ,g) applied character-wise. -/
def hyphenToSpace (c : Char) : Char := if c = '-' then ' ' else c

/-- SCRIPT_TITLE: the script name piped through the hyphen-to-space sed
and then sed s/\b\(.\)/\u\1/g.  No lower-casing occurs and only the
hyphen is replaced. -/
def scriptTitle (name : List Char) : List Char :=
  upBoundary false (name.map hyphenToSpace)

/-- Separators of the claimed title-casing procedure. -/
def sepToSpace (c : Char) : Char :=
  if c = '-' || c = '_' then ' ' else c

/-- Upper-case the character at each word start, where words are the
maximal space-free runs.  The boolean is true at a word start (string
start or right after a space). -/
def upWordStart (atStart : Bool) : List Char → List Char
  | [] => []
  | c :: t =>
      (if atStart then c.toUpper else c) :: upWordStart (c = ' ') t

/-- The title-casing procedure as the specification words it: lower-case
the name, replace separator characters with spaces, upper-case the first
letter of each word. -/
def titleCaseSpec (name : List Char) : List Char :=
  upWordStart true ((name.map Char.toLower).map sepToSpace)

/-- The scheme alternation https?:// of the domain sed: if the list
starts with a scheme, return the remainder after it. -/
def schemeMatch (l : List Char) : Option (List Char) :=
  if isPrefixB "https://".data l then some (l.drop 8)
  else if isPrefixB "http://".data l then some (l.drop 7)
  else none

/-- Whole-regex match of https?://([^/]+).* at the current position:
the scheme followed by at least one non-slash character; on success the
captured host (the non-slash run). -/
def hostMatchAt (l : List Char) : Option (List Char) :=
  match schemeMatch l with
  | none => none
  | some after =>
      match after with
      | [] => none
      | a :: _ => if a = '/' then none
                  else some (after.takeWhile (fun c => c ≠ '/'))

/-- sed -E s|https?://([^/]+).*|\1|: replace the leftmost match of the
regex by its captured host (the trailing .* deletes the rest of the
line); a line with no match is passed through unchanged. -/
def sedStripScheme : List Char → List Char
  | [] => []
  | c :: t =>
      match hostMatchAt (c :: t) with
      | some host => host
      | none => c :: sedStripScheme t

/-- sed s/\*/example.com/ (no /g): replace only the first asterisk. -/
def replaceFirstStar : List Char → List Char
  | [] => []
  | c :: t =>
      if c = '*' then "example.com".data ++ t
      else c :: replaceFirstStar t

/-- DOMAIN: the target URL through the two sed commands. -/
def sedDomain (url : List Char) : List Char :=
  replaceFirstStar (sedStripScheme url)

/-- The icon-host extraction as the specification words it: strip the
URL scheme, take the substring up to the first slash, replace a literal
asterisk with the fixed default host. -/
def domainSpec (url : List Char) : List Char :=
  let afterScheme :=
    if isPrefixB "https://".data url then url.drop 8
    else if isPrefixB "http://".data url then url.drop 7
    else url
  replaceFirstStar (afterScheme.takeWhile (fun c => c ≠ '/'))

/-- sed s|key.*|repl|: on a line containing key, everything from the
first occurrence of key to the end of the line is replaced; other lines
pass through. -/
def replaceFromFirst (key repl : List Char) : List Char → List Char
  | [] => []
  | c :: t =>
      if isPrefixB key (c :: t) then repl
      else c :: replaceFromFirst key repl t

/-- sed s|pat|repl|g for a nonempty fixed pattern (head p, tail ps):
replace every non-overlapping occurrence, scanning left to right. -/
def replaceAllSub (p : Char) (ps repl : List Char) : List Char → List Char
  | [] => []
  | c :: t =>
      if isPrefixB (p :: ps) (c :: t) then
        repl ++ replaceAllSub p ps repl (t.drop ps.length)
      else c :: replaceAllSub p ps repl t
termination_by l => l.length
decreasing_by
  · simp [List.length_drop]; omega
  · simp

/-- The six sed substitutions the generator applies to each line of the
copied template, in script order. -/
def generatorSubstLine (title domain url : List Char) (l : List Char) :
    List Char :=
  let l1 := replaceFromFirst "@name".data
    ("@name         ".data ++ title) l
  let l2 := replaceFromFirst "@match".data
    ("@match        ".data ++ url) l1
  let l3 := replaceFromFirst "@icon".data
    ("@icon         https://www.google.com/s2/favicons?sz=64&domain=".data
      ++ domain) l2
  let l4 := replaceAllSub 'M' "y Userscript".data title l3
  let l5 := replaceAllSub 'A' "dvanced Userscript Template".data title l4
  replaceAllSub 'S' "PA-Compatible Template".data title l5

/-- Result of one generator invocation. -/
inductive GenResult where
  | usageError
  | unknownTemplate
  | missingTemplate
  | aborted
  | success (path : String) (content : FileText)
deriving DecidableEq

/-- The case statement mapping the template argument to a template file
name. -/
def templateNameFor : String → Option String
  | "basic" => some "basic-template.user.js"
  | "advanced" => some "advanced-template.user.js"
  | "spa" => some "spa-compatible.user.js"
  | _ => none

/-- generate-userscript.sh.  templates models the templates directory
(file name to content); outputExists and confirmYes model the overwrite
prompt.  The empty third argument defaults to basic (TEMPLATE="basic"
when $3 is empty).  On success exactly one file is written, at the
relative path SCRIPT_NAME.user.js, with the substituted template
content. -/
def generate (templates : String → Option FileText)
    (outputExists confirmYes : Bool)
    (name url kind : String) : GenResult :=
  if name = "" || url = "" then .usageError
  else
    let kindD := if kind = "" then "basic" else kind
    match templateNameFor kindD with
    | none => .unknownTemplate
    | some tf =>
        match templates tf with
        | none => .missingTemplate
        | some content =>
            if outputExists && !confirmYes then .aborted
            else
              let title := scriptTitle name.data
              let domain := sedDomain url.data
              .success (name ++ ".user.js")
                (content.map (generatorSubstLine title domain url.data))

/-! ## waitForElement (templates)

The promise body first queries the selector; if absent it registers a
MutationObserver whose callback re-queries on every notification and,
failing that, rejects once the elapsed time strictly exceeds the
timeout, disconnecting the observer in either terminal case.  A
notification is modelled by its delivery time (Date.now() minus
startTime) and whether document.querySelector(selector) finds a match at
that point.  Disconnecting stops delivery of further notifications. -/

/-- One mutation notification: elapsed time at delivery, and whether the
selector matches the document then. -/
structure Notif where
  time : Nat
  found : Bool
deriving DecidableEq

/-- Outcome counts of one waitForElement invocation. -/
structure WfeResult where
  resolved : Nat
  rejected : Nat
deriving DecidableEq

/-- The observer callback over the notification sequence: resolve on a
match, otherwise reject when past the timeout; both disconnect, so the
remaining notifications are dropped. -/
def wfeObserve (timeout : Nat) : List Notif → WfeResult
  | [] => ⟨0, 0⟩
  | n :: rest =>
      if n.found then ⟨1, 0⟩
      else if n.time > timeout then ⟨0, 1⟩
      else wfeObserve timeout rest

/-- A full waitForElement run: the immediate initial query (initFound),
then the observer over the notification sequence. -/
def wfeRun (timeout : Nat) (initFound : Bool) (notifs : List Notif) :
    WfeResult :=
  if initFound then ⟨1, 0⟩ else wfeObserve timeout notifs

/-! ## RouteHandler (spa-compatible template)

Simple string patterns are compiled by
replace(:[^\s/]+ with ([^/]+)) and replace(* with .*) and wrapped in
anchors; the compiled form is a token list.  The matcher implements the
anchored regex with greedy backtracking; captures are the group matches
in order, as url.match(regex).slice(1) returns them. -/

/-- A token of a compiled route pattern: a literal character, a
capturing group ([^/]+), or the non-capturing wildcard .* . -/
inductive Tok where
  | lit (c : Char)
  | group
  | star
deriving DecidableEq

/-- Worker for compileRoute, structurally recursive on a fuel argument
that starts at the pattern length; every step consumes at least one
character, so the fuel never runs out on the initial call. -/
def compileRouteAux : Nat → List Char → List Tok
  | 0, _ => []
  | _ + 1, [] => []
  | fuel + 1, ':' :: c :: rest =>
      if c ≠ '/' && !c.isWhitespace then
        Tok.group ::
          compileRouteAux fuel
            ((c :: rest).dropWhile (fun x => x ≠ '/' && !x.isWhitespace))
      else Tok.lit ':' :: compileRouteAux fuel (c :: rest)
  | fuel + 1, '*' :: rest => Tok.star :: compileRouteAux fuel rest
  | fuel + 1, c :: rest => Tok.lit c :: compileRouteAux fuel rest

/-- Compile a simple route pattern string: a colon followed by at least
one character that is neither whitespace nor a slash becomes a capturing
group consuming that run; an asterisk becomes the wildcard; anything
else is literal. -/
def compileRoute (pat : List Char) : List Tok :=
  compileRouteAux pat.length pat

/-- All splits (taken, rest) of a list, longest taken first, giving the
greedy preference order of a regex quantifier. -/
def splitsDesc (s : List Char) : List (List Char × List Char) :=
  (List.range (s.length + 1)).reverse.map fun k => (s.take k, s.drop k)

/-- First non-none value of f over a list. -/
def firstSomeMap (f : α → Option β) : List α → Option β
  | [] => none
  | x :: t =>
      match f x with
      | some b => some b
      | none => firstSomeMap f t

/-- Anchored match of a compiled pattern against a URL string, returning
the list of captured groups on success.  Groups match one or more
non-slash characters and the wildcard any run, both greedily with
backtracking. -/
def tokMatch : List Tok → List Char → Option (List (List Char))
  | [], s => if s.isEmpty then some [] else none
  | .lit _ :: _, [] => none
  | .lit c :: ts, x :: xs => if x = c then tokMatch ts xs else none
  | .star :: ts, s =>
      firstSomeMap (fun pr => tokMatch ts pr.2) (splitsDesc s)
  | .group :: ts, s =>
      firstSomeMap
        (fun pr =>
          if pr.1.isEmpty || pr.1.any (fun c => c = '/') then none
          else (tokMatch ts pr.2).map (pr.1 :: ·))
        (splitsDesc s)

/-- A route: a compiled pattern plus its handler.  The handler receives
the captured groups positionally. -/
structure Route (β : Type) where
  toks : List Tok
  handler : List (List Char) → β

/-- RouteHandler.match: scan the registered routes in order and return
the first whose pattern matches, with its captures (match.slice(1)). -/
def rhMatch (routes : List (Route β)) (url : List Char) :
    Option ((List (List Char) → β) × List (List Char)) :=
  match routes with
  | [] => none
  | r :: rest =>
      match tokMatch r.toks url with
      | some caps => some (r.handler, caps)
      | none => rhMatch rest url

/-- RouteHandler.handle: invoke the matched handler on the captures. -/
def rhHandle (routes : List (Route β)) (url : List Char) : Option β :=
  (rhMatch routes url).map fun r => r.1 r.2

/-! ## Bookmark store (YouTube timestamp bookmarker, README.md)

The example script keeps, per video, a GM-value holding the
JSON-serialization of an array of \x7btime, note\x7d records.  The JSON
text layer is modelled at the level of JSON values: JSON.stringify and
JSON.parse are the encode and decode functions below (stringify of a
record array and parse of its output are mutually inverse, which the
roundtrip lemma makes precise).  The store for one video is an
Option Json: none while the key is absent (GM_getValue then supplies
the default, which parses to the empty array). -/

/-- A bookmark record: integer seconds (Math.floor of currentTime) and
a note string. -/
structure Bookmark where
  time : Nat
  note : String
deriving DecidableEq

/-- JSON values, as far as the script's data goes. -/
inductive Json where
  | num (n : Nat)
  | str (s : String)
  | arr (elems : List Json)
  | obj (fields : List (String × Json))

/-- JSON.stringify of one \x7btime, note\x7d record. -/
def encodeBookmark (b : Bookmark) : Json :=
  .obj [("time", .num b.time), ("note", .str b.note)]

/-- JSON.parse of one record. -/
def decodeBookmark : Json → Option Bookmark
  | .obj [("time", .num t), ("note", .str s)] => some ⟨t, s⟩
  | _ => none

/-- JSON.stringify of the bookmark array. -/
def encodeBookmarks (l : List Bookmark) : Json := .arr (l.map encodeBookmark)

/-- JSON.parse of a bookmark array. -/
def decodeBookmarks : Json → Option (List Bookmark)
  | .arr es => es.mapM decodeBookmark
  | _ => none

/-- The sort comparator (a, b) => a.time - b.time: ascending by time. -/
def timeLE (a b : Bookmark) : Prop := a.time ≤ b.time

instance : DecidableRel timeLE :=
  fun a b => inferInstanceAs (Decidable (a.time ≤ b.time))

instance : IsTotal Bookmark timeLE := ⟨fun a b => Nat.le_total a.time b.time⟩

instance : IsTrans Bookmark timeLE := ⟨fun _ _ _ h1 h2 => Nat.le_trans h1 h2⟩

/-- addBookmark on the in-memory list: if a bookmark with this time
exists, alert and return the list unchanged (no save); otherwise push
\x7btime, note: empty\x7d and sort ascending by time. -/
def addBookmark (t : Nat) (l : List Bookmark) : List Bookmark :=
  if l.any (fun b => b.time == t) then l
  else List.insertionSort timeLE (l ++ [⟨t, ""⟩])

/-- deleteBookmark on the in-memory list: filter(b => b.time !== time). -/
def deleteBookmark (t : Nat) (l : List Bookmark) : List Bookmark :=
  l.filter (fun b => !(b.time == t))

/-- The UI operations that touch the store. -/
inductive BmOp where
  | add (t : Nat)
  | del (t : Nat)

/-- getBookmarks: parse the stored value, defaulting to the empty
array. -/
def getStored : Option Json → List Bookmark
  | none => []
  | some j => (decodeBookmarks j).getD []

/-- One operation on the persisted store.  addBookmark saves only when
the time was not already bookmarked (the duplicate branch alerts and
returns without calling saveBookmarks); deleteBookmark always saves. -/
def stepOp (st : Option Json) : BmOp → Option Json
  | .add t =>
      if (getStored st).any (fun b => b.time == t) then st
      else some (encodeBookmarks (addBookmark t (getStored st)))
  | .del t => some (encodeBookmarks (deleteBookmark t (getStored st)))

/-- Run a sequence of UI operations from an absent key. -/
def runOps (ops : List BmOp) : Option Json :=
  ops.foldl stepOp none

/-- The claimed store shape: strictly ascending times, i.e. sorted
ascending with pairwise-distinct time values. -/
def strictByTime (l : List Bookmark) : Prop :=
  l.Pairwise (fun a b => a.time < b.time)

/-! ## Validator CLI as a world transformer (for purity)

The script only ever reads the target file and writes to its own
stdout; the file store it runs against is left untouched.  Every
command of the script is either an echo, a grep over the input file, a
variable assignment or an exit; none writes to the store, which the
embedding reflects by threading the store through unchanged. -/

/-- A file store: paths with their contents. -/
structure World where
  files : List (String × FileText)
deriving DecidableEq

/-- Read a file from the store. -/
def readFile (w : World) (p : String) : Option FileText :=
  (w.files.find? (fun e => e.1 == p)).map (fun e => e.2)

/-- One validator invocation: missing file is exit 1 with nothing
reported, otherwise the bash run on the contents.  The resulting world
is returned alongside. -/
def validateCLI (w : World) (p : String) : (Nat × List Finding) × World :=
  match readFile w p with
  | none => ((1, []), w)
  | some content => (bashRun content, w)

/-! ## Concrete input files used by the claims about the validator -/

/-- A well-formed script that merely lacks a use-strict marker: the
battery yields zero errors and exactly one warning. -/
def warnOnlyFile : FileText :=
  ["// @name Test Script".data,
   "// @version 1.0".data,
   "// @match https://example.com/*".data,
   "(function() \x7b".data,
   "    const x = 1;".data,
   "\x7d)();".data]

/-- A script missing both the name and the version declarations. -/
def twoMissingFile : FileText :=
  ["// @match https://example.com/*".data,
   "\x27use strict\x27;".data,
   "(function() \x7b".data,
   "\x7d)();".data]

/-- A one-line script calling GM_setValue with no metadata at all. -/
def gmNoMetaFile : FileText :=
  ["GM_setValue(\x27k\x27, 1);".data]

/-! ## Claims -/

/-- C1: the claim says the validator exits 0 whenever the file yields
zero error findings, regardless of warnings.  The script's own summary
block implements exactly that (summaryExit), but the actual run aborts
at the first warning: on warnOnlyFile the battery has zero errors and
one warning, the summary logic would exit 0, yet the script exits 1,
because ((WARNINGS++)) evaluates to 0 and set -e terminates the script
before the summary.  The code contradicts its own summary logic, so the
claim marks a code bug. -/
theorem validator_exit_nonzero_on_warning_only :
    errorCount warnOnlyFile = 0 ∧ warningCount warnOnlyFile = 1 ∧
    summaryExit warnOnlyFile = 0 ∧ bashExit warnOnlyFile = 1 := by
  decide

/-- C2: the claim says at least one error finding per missing required
field.  On a file missing both the name and the version fields, the
check battery is written to yield one error per missing field, but the
run reports only the first of them and exits: set -e aborts the script
at the first ((ERRORS++)).  The exit status is failure, as claimed, but
the per-field reporting is not delivered. -/
theorem validator_reports_only_first_missing_field :
    findings twoMissingFile =
      [Finding.missingField "@name", Finding.missingField "@version"] ∧
    bashReported twoMissingFile = [Finding.missingField "@name"] ∧
    bashExit twoMissingFile = 1 := by
  decide

/-- C3: the claim says every file containing a recognized GM API name
without its grant line yields an error finding for that call.  The
grant check itself (check2 in the battery) does yield that finding, but
on a file whose metadata is missing the run never reaches it: the
script aborts at the first missing-field error, so the GM error is
never reported. -/
theorem validator_skips_grant_check_after_metadata_error :
    Finding.gmNoGrant "GM_setValue" ∈ findings gmNoMetaFile ∧
    bashReported gmNoMetaFile = [Finding.missingField "@name"] ∧
    Finding.gmNoGrant "GM_setValue" ∉ bashReported gmNoMetaFile ∧
    bashExit gmNoMetaFile = 1 := by
  decide

/-- C4 counterexample: the claim asserts a timeout outcome is observed
exactly once for every notification sequence, but the timeout is only
checked inside the observer callback; with no mutation notification at
all (or none after the deadline) the callback never fires, so no
rejection ever happens and the promise stays pending.  At timeout 10000
and the empty notification sequence the claimed count of one fails. -/
theorem waitForElement_no_timeout_without_notification :
    (wfeRun 10000 false []).rejected = 0 ∧
    (wfeRun 10000 false []).resolved = 0 := by
  decide

/-- C4 (amended): for a selector never present, the promise never
resolves (so in particular never before the timeout), the timeout
outcome happens at most once — the rejection disconnects the observer,
so it is never repeated — and it happens exactly once precisely when
some mutation notification is delivered strictly after the timeout has
elapsed. -/
theorem waitForElement_timeout_at_most_once (timeout : Nat)
    (notifs : List Notif) (hnever : ∀ n ∈ notifs, n.found = false) :
    (wfeRun timeout false notifs).resolved = 0 ∧
    (wfeRun timeout false notifs).rejected ≤ 1 ∧
    ((wfeRun timeout false notifs).rejected = 1 ↔
      ∃ n ∈ notifs, timeout < n.time) := by
  simp only [wfeRun, if_neg (Bool.false_ne_true)]
  induction notifs with
  | nil => simp [wfeObserve]
  | cons n rest ih =>
      have hn : n.found = false := hnever n (by simp)
      have hrest : ∀ m ∈ rest, m.found = false := fun m hm =>
        hnever m (by simp [hm])
      rcases ih hrest with ⟨ih1, ih2, ih3⟩
      by_cases ht : n.time > timeout
      · simp [wfeObserve, hn, ht]
      · have hle : ¬ timeout < n.time := ht
        simp only [wfeObserve, hn, Bool.false_eq_true, if_false,
          if_neg ht]
        refine ⟨ih1, ih2, ?_⟩
        rw [ih3]
        constructor
        · rintro ⟨m, hm, hmt⟩
          exact ⟨m, by simp [hm], hmt⟩
        · rintro ⟨m, hm, hmt⟩
          rcases List.mem_cons.mp hm with h | h
          · exact absurd (h ▸ hmt) hle
          · exact ⟨m, h, hmt⟩

/-- C4 witness: timeout 100, selector never found, notifications at 50,
200 and 300; the rejection happens exactly once. -/
theorem waitForElement_timeout_at_most_once_witness :
    (wfeRun 100 false [⟨50, false⟩, ⟨200, false⟩, ⟨300, false⟩]).resolved
        = 0 ∧
    (wfeRun 100 false [⟨50, false⟩, ⟨200, false⟩, ⟨300, false⟩]).rejected
        ≤ 1 ∧
    ((wfeRun 100 false [⟨50, false⟩, ⟨200, false⟩, ⟨300, false⟩]).rejected
        = 1 ↔
      ∃ n ∈ [Notif.mk 50 false, ⟨200, false⟩, ⟨300, false⟩],
        100 < n.time) :=
  waitForElement_timeout_at_most_once 100 _ (by decide)

/-- The lower-case ASCII letters, for the title-casing comparison. -/
def lowercaseChars : List Char := "abcdefghijklmnopqrstuvwxyz".data

/-- Facts about a lower-case letter used by the title-casing proofs:
lower-casing and both separator maps fix it, it is a word character and
it is not a space. -/
theorem lower_char_facts (c : Char) (h : c ∈ lowercaseChars) :
    c.toLower = c ∧ sepToSpace c = c ∧ hyphenToSpace c = c ∧
    isWordChar c = true ∧ c ≠ ' ' := by
  fin_cases h <;> exact ⟨by decide, by decide, by decide, by decide,
    by decide⟩

/-- On names over lower-case letters and hyphens, the two pre-processing
pipelines (hyphen-to-space versus lower-case-then-separator-to-space)
produce the same character list, and that list consists of lower-case
letters and spaces. -/
theorem mapped_chars_eq (name : List Char)
    (h : ∀ c ∈ name, c ∈ lowercaseChars ∨ c = '-') :
    (name.map Char.toLower).map sepToSpace = name.map hyphenToSpace ∧
    ∀ d ∈ name.map hyphenToSpace, d ∈ lowercaseChars ∨ d = ' ' := by
  induction name with
  | nil => simp
  | cons c t ih =>
      obtain ⟨ih1, ih2⟩ := ih (fun x hx => h x (List.mem_cons_of_mem c hx))
      rcases h c (List.mem_cons_self c t) with hc | hc
      · obtain ⟨h1, h2, h3, _, _⟩ := lower_char_facts c hc
        refine ⟨by simp [h1, h2, h3, ih1], ?_⟩
        intro d hd
        rcases List.mem_cons.mp hd with hd | hd
        · rw [hd, h3]; exact Or.inl hc
        · exact ih2 d hd
      · subst hc
        refine ⟨by simpa [show Char.toLower '-' = '-' from rfl,
            show sepToSpace '-' = ' ' from rfl,
            show hyphenToSpace '-' = ' ' from rfl] using ih1, ?_⟩
        intro d hd
        rcases List.mem_cons.mp hd with hd | hd
        · exact Or.inr (by rw [hd]; rfl)
        · exact ih2 d hd

/-- Over lower-case letters and spaces the sed word-boundary
upper-casing agrees with the word-start upper-casing of the claimed
procedure, for corresponding starting states. -/
theorem upBoundary_eq_upWordStart (l : List Char)
    (h : ∀ c ∈ l, c ∈ lowercaseChars ∨ c = ' ') :
    ∀ b : Bool, upBoundary b l = upWordStart (!b) l := by
  induction l with
  | nil => intro b; rfl
  | cons c t ih =>
      intro b
      have iht := ih (fun x hx => h x (List.mem_cons_of_mem c hx))
      rcases h c (List.mem_cons_self c t) with hc | hc
      · obtain ⟨_, _, _, hw, hs⟩ := lower_char_facts c hc
        simp only [upBoundary, upWordStart, hw, Bool.true_and,
          iht true, Bool.not_true, decide_eq_false hs]
      · subst hc
        simp only [upBoundary, upWordStart,
          show isWordChar ' ' = false from rfl,
          show Char.toUpper ' ' = ' ' from rfl, Bool.false_and,
          iht false, Bool.not_false,
          show decide (' ' = ' ') = true from rfl]
        cases b <;> rfl

/-- C5 counterexample: the claim says the title is produced by
lower-casing the name first; the sed pipeline never lower-cases, so the
name DARK-mode yields DARK Mode while the claimed procedure yields
Dark Mode. -/
theorem scriptTitle_no_lowercasing :
    scriptTitle "DARK-mode".data = "DARK Mode".data ∧
    titleCaseSpec "DARK-mode".data = "Dark Mode".data ∧
    scriptTitle "DARK-mode".data ≠ titleCaseSpec "DARK-mode".data := by
  decide

/-- C5 (amended): the generated title replaces hyphens with spaces and
upper-cases the first letter of each word, with no prior lower-casing
and with only the hyphen treated as a separator; for names consisting
of lower-case letters and hyphens this coincides with the claimed
lower-case/replace-separators/title-case procedure. -/
theorem scriptTitle_matches_spec_on_lowercase_names (name : List Char)
    (h : ∀ c ∈ name, c ∈ lowercaseChars ∨ c = '-') :
    scriptTitle name = titleCaseSpec name := by
  obtain ⟨heq, hchars⟩ := mapped_chars_eq name h
  unfold scriptTitle titleCaseSpec
  rw [heq]
  exact (upBoundary_eq_upWordStart _ hchars false).trans
    (by rw [Bool.not_false])

/-- C5 witness: dark-mode satisfies the hypothesis and both procedures
give its title (the claim's example value Dark Mode). -/
theorem scriptTitle_matches_spec_on_lowercase_names_witness :
    (∀ c ∈ "dark-mode".data, c ∈ lowercaseChars ∨ c = '-') ∧
    scriptTitle "dark-mode".data = titleCaseSpec "dark-mode".data ∧
    scriptTitle "dark-mode".data = "Dark Mode".data :=
  ⟨by decide, scriptTitle_matches_spec_on_lowercase_names _ (by decide),
    by decide⟩

/-- The whole-regex match of the domain sed at the start of an https
URL with a nonempty non-slash host character: the captured host is the
run up to the first slash. -/
theorem hostMatchAt_https (a : Char) (t : List Char) (ha : a ≠ '/') :
    hostMatchAt ("https://".data ++ a :: t) =
      some ((a :: t).takeWhile (fun c => c ≠ '/')) := by
  show (if a = '/' then none
        else some ((a :: t).takeWhile (fun c => c ≠ '/'))) = _
  rw [if_neg ha]

/-- The same for an http URL. -/
theorem hostMatchAt_http (a : Char) (t : List Char) (ha : a ≠ '/') :
    hostMatchAt ("http://".data ++ a :: t) =
      some ((a :: t).takeWhile (fun c => c ≠ '/')) := by
  show (if a = '/' then none
        else some ((a :: t).takeWhile (fun c => c ≠ '/'))) = _
  rw [if_neg ha]

/-- C6 counterexample: the claim describes the icon domain universally
as strip-scheme-then-take-up-to-slash, but the sed substitutes only
when the URL contains an http(s) scheme; a scheme-less URL passes
through whole, with just its first asterisk replaced, so the computed
value still contains the path instead of being the host. -/
theorem sedDomain_schemeless_counterexample :
    sedDomain "www.example.org/path/*".data =
      "www.example.org/path/example.com".data ∧
    domainSpec "www.example.org/path/*".data = "www.example.org".data ∧
    sedDomain "www.example.org/path/*".data ≠
      domainSpec "www.example.org/path/*".data := by
  decide

/-- C6 (amended): for target URLs that start with http:// or https://
and whose remainder starts with a non-slash character, the icon domain
is computed exactly as the claim says: strip the scheme, take the
substring up to the first slash, and replace the first literal asterisk
with example.com.  (URLs without an http(s) scheme are passed through
with only the first asterisk replaced.) -/
theorem sedDomain_matches_spec_on_http_urls (a : Char) (t : List Char)
    (ha : a ≠ '/') :
    sedDomain ("https://".data ++ a :: t) =
      domainSpec ("https://".data ++ a :: t) ∧
    sedDomain ("http://".data ++ a :: t) =
      domainSpec ("http://".data ++ a :: t) := by
  constructor
  · calc sedDomain ("https://".data ++ a :: t)
        = replaceFirstStar
            (match hostMatchAt ("https://".data ++ a :: t) with
             | some host => host
             | none => 'h' :: sedStripScheme ("ttps://".data ++ a :: t)) :=
          rfl
      _ = replaceFirstStar ((a :: t).takeWhile (fun c => c ≠ '/')) := by
          rw [hostMatchAt_https a t ha]
      _ = domainSpec ("https://".data ++ a :: t) := rfl
  · calc sedDomain ("http://".data ++ a :: t)
        = replaceFirstStar
            (match hostMatchAt ("http://".data ++ a :: t) with
             | some host => host
             | none => 'h' :: sedStripScheme ("ttp://".data ++ a :: t)) :=
          rfl
      _ = replaceFirstStar ((a :: t).takeWhile (fun c => c ≠ '/')) := by
          rw [hostMatchAt_http a t ha]
      _ = domainSpec ("http://".data ++ a :: t) := rfl

/-- C6 witness: the youtube match pattern of the skill's own examples;
the host character after the scheme is w, not a slash, and both
computations give www.youtube.com. -/
theorem sedDomain_matches_spec_on_http_urls_witness :
    ('w' ≠ '/') ∧
    (sedDomain ("https://".data ++ 'w' :: "ww.youtube.com/*".data) =
        domainSpec ("https://".data ++ 'w' :: "ww.youtube.com/*".data) ∧
      sedDomain ("http://".data ++ 'w' :: "ww.youtube.com/*".data) =
        domainSpec ("http://".data ++ 'w' :: "ww.youtube.com/*".data)) ∧
    sedDomain "https://www.youtube.com/*".data = "www.youtube.com".data :=
  ⟨by decide,
    sedDomain_matches_spec_on_http_urls 'w' "ww.youtube.com/*".data
      (by decide),
    by decide⟩

/-- C7: route matching is ordered first-match.  For routes registered
in order [A, B] and a URL whose text matches both patterns, match
returns A's handler with A's captured groups, never B's, and handle
invokes A's handler on those captures positionally. -/
theorem route_first_match_wins {β : Type} (A B : Route β)
    (url : List Char) (capsA capsB : List (List Char))
    (hA : tokMatch A.toks url = some capsA)
    (hB : tokMatch B.toks url = some capsB) :
    rhMatch [A, B] url = some (A.handler, capsA) ∧
    rhHandle [A, B] url = some (A.handler capsA) := by
  refine ⟨?_, ?_⟩ <;> simp [rhMatch, rhHandle, hA]

/-- C7 witness: the pattern of the template's own user route, followed
by a wildcard route that also matches; the URL /user/42 matches both,
the first route wins and its handler receives the capture 42. -/
theorem route_first_match_wins_witness :
    tokMatch (compileRoute "/user/:id".data) "/user/42".data =
      some [['4', '2']] ∧
    tokMatch (compileRoute "/user/*".data) "/user/42".data = some [] ∧
    (rhMatch [Route.mk (compileRoute "/user/:id".data)
                (fun caps => (0, caps)),
              Route.mk (compileRoute "/user/*".data)
                (fun caps => (1, caps))] "/user/42".data =
        some ((fun caps => ((0 : Nat), caps)), [['4', '2']]) ∧
      rhHandle [Route.mk (compileRoute "/user/:id".data)
                  (fun caps => (0, caps)),
                Route.mk (compileRoute "/user/*".data)
                  (fun caps => (1, caps))] "/user/42".data =
        some (0, [['4', '2']])) :=
  ⟨by decide, by decide,
    route_first_match_wins
      (Route.mk (compileRoute "/user/:id".data)
        (fun caps => ((0 : Nat), caps)))
      (Route.mk (compileRoute "/user/*".data) (fun caps => (1, caps)))
      "/user/42".data [['4', '2']] [] (by decide) (by decide)⟩

/-- C8: validator idempotence and purity: one invocation leaves the
file store unchanged, and a second invocation on the same path returns
the same exit status and the same reported findings (hence identical
error and warning counts). -/
theorem validator_pure_and_idempotent (w : World) (p : String) :
    (validateCLI w p).2 = w ∧
    (validateCLI (validateCLI w p).2 p).1 = (validateCLI w p).1 := by
  have hw : (validateCLI w p).2 = w := by
    unfold validateCLI
    cases readFile w p <;> rfl
  exact ⟨hw, by rw [hw]⟩

/-- JSON.parse inverts JSON.stringify on bookmark arrays. -/
theorem decode_encode (l : List Bookmark) :
    decodeBookmarks (encodeBookmarks l) = some l := by
  induction l with
  | nil => rfl
  | cons b t ih =>
      have hb : decodeBookmark (encodeBookmark b) = some b := rfl
      simp only [encodeBookmarks, decodeBookmarks, List.map_cons,
        List.mapM_cons, hb] at *
      rw [ih]
      rfl

/-- getBookmarks reads back exactly the list that was saved. -/
theorem getStored_encode (l : List Bookmark) :
    getStored (some (encodeBookmarks l)) = l := by
  simp [getStored, decode_encode]

/-- Pushing a fresh time onto a strictly-ascending list and sorting by
time yields a strictly-ascending list again: sortedness comes from the
sort, distinctness from the freshness of the new time. -/
theorem sortedInsert_strict (t : Nat) (l : List Bookmark)
    (hl : strictByTime l)
    (hany : l.any (fun b => b.time == t) = false) :
    strictByTime
      (List.insertionSort timeLE (l ++ [Bookmark.mk t ""])) := by
  have hne : ∀ b ∈ l, b.time ≠ t := by
    intro b hb
    have := List.any_eq_false.mp hany b hb
    simpa using this
  have hpairne : (l ++ [Bookmark.mk t ""]).Pairwise
      (fun a b : Bookmark => a.time ≠ b.time) := by
    rw [List.pairwise_append]
    refine ⟨hl.imp (fun h => Nat.ne_of_lt h),
      List.pairwise_singleton _ _, ?_⟩
    intro a ha b hb
    rw [List.mem_singleton.mp hb]
    exact hne a ha
  have hperm := List.perm_insertionSort timeLE (l ++ [Bookmark.mk t ""])
  have hsortne :
      (List.insertionSort timeLE (l ++ [Bookmark.mk t ""])).Pairwise
        (fun a b : Bookmark => a.time ≠ b.time) :=
    hpairne.perm hperm.symm (fun h => Ne.symm h)
  have hsorted := List.sorted_insertionSort timeLE (l ++ [Bookmark.mk t ""])
  exact (List.Pairwise.and hsorted hsortne).imp
    (fun h => Nat.lt_of_le_of_ne h.1 h.2)

/-- Store well-formedness: the decoded list is strictly ascending, and
the store is either still absent or holds exactly the encoding of its
decoded list. -/
def storeOk (st : Option Json) : Prop :=
  strictByTime (getStored st) ∧
  (st = none ∨ st = some (encodeBookmarks (getStored st)))

/-- Every operation from a well-formed store produces a present,
self-encoded, strictly-ascending store. -/
theorem stepOp_ok (st : Option Json) (op : BmOp) (h : storeOk st) :
    stepOp st op = some (encodeBookmarks (getStored (stepOp st op))) ∧
    strictByTime (getStored (stepOp st op)) := by
  obtain ⟨hstrict, hform⟩ := h
  cases op with
  | del t =>
      have : stepOp st (BmOp.del t) =
          some (encodeBookmarks (deleteBookmark t (getStored st))) := rfl
      rw [this, getStored_encode]
      exact ⟨rfl, hstrict.filter _⟩
  | add t =>
      by_cases hany : (getStored st).any (fun b => b.time == t) = true
      · have hst : stepOp st (BmOp.add t) = st := by
          simp [stepOp, hany]
        rcases hform with hnone | hsome
        · exfalso
          rw [hnone] at hany
          simp [getStored] at hany
        · rw [hst]
          exact ⟨hsome, hstrict⟩
      · have hanyf : (getStored st).any (fun b => b.time == t) = false :=
          Bool.not_eq_true _ ▸ (by simpa using hany)
        have hst : stepOp st (BmOp.add t) =
            some (encodeBookmarks
              (List.insertionSort timeLE
                (getStored st ++ [Bookmark.mk t ""]))) := by
          simp [stepOp, addBookmark, hanyf]
        rw [hst, getStored_encode]
        exact ⟨rfl, sortedInsert_strict t _ hstrict hanyf⟩

/-- Well-formedness is preserved along any operation sequence. -/
theorem foldl_ok (ops : List BmOp) :
    ∀ st : Option Json, storeOk st → storeOk (ops.foldl stepOp st) := by
  induction ops with
  | nil => exact fun st h => h
  | cons op rest ih =>
      intro st h
      have hstep := stepOp_ok st op h
      exact ih (stepOp st op) ⟨hstep.2, Or.inr hstep.1⟩

/-- C9: after every addBookmark or deleteBookmark operation, the
persisted per-video entry is exactly the JSON encoding of a list of
\x7btime, note\x7d records sorted strictly ascending by time (sorted
with pairwise-distinct times), and an addBookmark at an
already-bookmarked time leaves the stored entry unchanged. -/
theorem bookmark_store_invariant (ops : List BmOp) (op : BmOp) :
    runOps (ops ++ [op]) =
      some (encodeBookmarks (getStored (runOps (ops ++ [op])))) ∧
    strictByTime (getStored (runOps (ops ++ [op]))) ∧
    ∀ t, (getStored (runOps (ops ++ [op]))).any (fun b => b.time == t)
        = true →
      stepOp (runOps (ops ++ [op])) (BmOp.add t) =
        runOps (ops ++ [op]) := by
  have hsplit : runOps (ops ++ [op]) = stepOp (runOps ops) op := by
    unfold runOps
    rw [List.foldl_append]
    rfl
  have hok : storeOk (runOps ops) :=
    foldl_ok ops none ⟨List.Pairwise.nil, Or.inl rfl⟩
  obtain ⟨hform, hstrict⟩ := hsplit ▸ stepOp_ok (runOps ops) op hok
  refine ⟨hform, hstrict, ?_⟩
  intro t ht
  simp [stepOp, ht]

/-- C9 witness: the sequence add 5, add 3, add 5; the final duplicate
add leaves the store unchanged and the stored list is the encoding of
the ascending, duplicate-free [3, 5]. -/
theorem bookmark_store_invariant_witness :
    runOps [BmOp.add 5, BmOp.add 3, BmOp.add 5] =
      some (encodeBookmarks
        (getStored (runOps [BmOp.add 5, BmOp.add 3, BmOp.add 5]))) ∧
    strictByTime
      (getStored (runOps [BmOp.add 5, BmOp.add 3, BmOp.add 5])) ∧
    ∀ t, (getStored (runOps [BmOp.add 5, BmOp.add 3, BmOp.add 5])).any
        (fun b => b.time == t) = true →
      stepOp (runOps [BmOp.add 5, BmOp.add 3, BmOp.add 5])
          (BmOp.add t) =
        runOps [BmOp.add 5, BmOp.add 3, BmOp.add 5] :=
  bookmark_store_invariant [BmOp.add 5, BmOp.add 3] (BmOp.add 5)

/-- C10: every successful generator invocation writes its single output
file at the relative path name.user.js — resolved against the invoker's
current working directory — whatever template kind was selected. -/
theorem generator_output_path (templates : String → Option FileText)
    (outputExists confirmYes : Bool) (name url kind : String)
    (p : String) (content : FileText)
    (h : generate templates outputExists confirmYes name url kind =
      GenResult.success p content) :
    p = name ++ ".user.js" := by
  simp only [generate] at h
  split at h
  · exact GenResult.noConfusion h
  · split at h
    · exact GenResult.noConfusion h
    · split at h
      · exact GenResult.noConfusion h
      · split at h
        · exact GenResult.noConfusion h
        · injection h with h1 h2
          exact h1.symm

/-- C10 witness: a successful run with the spa template kind writes
my-script.user.js. -/
theorem generator_output_path_witness :
    generate (fun _ => some []) false false "my-script"
        "https://example.com/*" "spa" =
      GenResult.success "my-script.user.js" [] ∧
    "my-script.user.js" = "my-script" ++ ".user.js" :=
  ⟨by decide,
    generator_output_path (fun _ => some []) false false "my-script"
      "https://example.com/*" "spa" "my-script.user.js" [] (by decide)⟩

end TM
